import Mathlib

/-!
Shallow embedding of the RailwayAI C++ scheduler core
(src/cpp/src/railway_scheduler.cpp, data model from
src/cpp/include/railway_common.h), together with theorems settling the
frozen claims about its natural-language specification.

Modelling conventions:
* `double` fields are embedded as `ℚ` (exact arithmetic); the IEEE
  infinity returned by `calculate_meeting_time` on near-zero closing
  speed is embedded as `Option ℚ` with `none` standing for `+∞`.
* `std::unordered_map` containers are embedded as lists; lookup by key
  is `List.find?` on the id field, and grouping retains the list order
  (the C++ iteration order is unspecified, so the model fixes one).
* Fallible code (`std::unordered_map::at`, which throws on a missing
  key) is embedded in the `Option` monad: `none` models the thrown
  `std::out_of_range`.
-/

set_option maxHeartbeats 1000000

attribute [local semireducible] Rat.mul Rat.inv Rat.add Rat.sub Rat.ofScientific

namespace RailwayAI

/-- Embedding of `railway::Train`; the wall-clock `last_update` field is
not modelled (no claim depends on it).  Defaults mirror the C++ default
constructor. -/
structure Train where
  id : Int := 0
  current_track : Int := 0
  position_km : ℚ := 0
  velocity_kmh : ℚ := 0
  scheduled_arrival_minutes : ℚ := 0
  destination_station : Int := 0
  priority : Int := 5
  is_delayed : Bool := false
  delay_minutes : ℚ := 0
  planned_route : List Int := []
  route_index : Int := 0
  position_on_track : ℚ := 0
  has_arrived : Bool := false
deriving DecidableEq

/-- Embedding of `railway::Track`. -/
structure Track where
  id : Int := 0
  length_km : ℚ := 0
  is_single_track : Bool := false
  capacity : Int := 0
  station_ids : List Int := []
  active_train_ids : List Int := []
deriving DecidableEq

/-- Embedding of `railway::Station`. -/
structure Station where
  id : Int := 0
  name : String := ""
  num_platforms : Int := 0
  connected_track_ids : List Int := []
  platform_occupied : List Bool := []
deriving DecidableEq

/-- Embedding of `railway::Conflict` (field names as assigned in
`railway_scheduler.cpp`); `estimated_collision_time_minutes = none`
models the IEEE `+∞`. -/
structure Conflict where
  train1_id : Int := 0
  train2_id : Int := 0
  track_id : Int := 0
  conflict_type : String := ""
  estimated_collision_time_minutes : Option ℚ := some 0
  severity : ℚ := 0
deriving DecidableEq

/-- Embedding of `railway::ScheduleAdjustment`. -/
structure ScheduleAdjustment where
  train_id : Int := 0
  time_adjustment_minutes : ℚ := 0
  new_track_id : Int := -1
  new_platform : Int := -1
  reason : String := ""
  confidence : ℚ := 0
deriving DecidableEq

/-- The scheduler state: the `trains_`, `tracks_`, `stations_` maps of
`RailwayScheduler`, embedded as lists with unique ids; the event log is
not modelled (no claim depends on it). -/
structure SchedulerState where
  trains : List Train := []
  tracks : List Track := []
  stations : List Station := []
deriving DecidableEq

/-- Key lookup in the `trains_` map (`trains_.count` / `trains_.at`). -/
def findTrain (trains : List Train) (tid : Int) : Option Train :=
  trains.find? (fun t => t.id == tid)

/-- Key lookup in the `tracks_` map. -/
def findTrack (tracks : List Track) (tid : Int) : Option Track :=
  tracks.find? (fun t => t.id == tid)

/-- All ordered pairs `(l[i], l[j])` with `i < j`, mirroring the nested
`for (i) for (j = i+1)` loops of `detect_conflicts`. -/
def ordPairs {α : Type} : List α → List (α × α)
  | [] => []
  | x :: xs => (xs.map (fun y => (x, y))) ++ ordPairs xs

/-- `RailwayScheduler::calculate_meeting_time`: `none` models the
`+∞` returned when the combined velocity is below `0.1` km/h. -/
def calculate_meeting_time (t1 t2 : Train) : Option ℚ :=
  let distance := |t1.position_km - t2.position_km|
  let relative_velocity := t1.velocity_kmh + t2.velocity_kmh
  if relative_velocity < 1/10 then none
  else some (distance / relative_velocity * 60)

/-- `RailwayScheduler::check_single_track_collision`: opposite halves of
the track and a meeting time strictly between 0 and 5 minutes (`+∞`
compares as not `< 5`). -/
def check_single_track_collision (t1 t2 : Train) (track : Track) : Bool :=
  let t1_forward : Bool := decide (t1.position_km < track.length_km / 2)
  let t2_forward : Bool := decide (t2.position_km < track.length_km / 2)
  if t1_forward = t2_forward then false
  else
    match calculate_meeting_time t1 t2 with
    | none => false
    | some m => decide (m < 5) && decide (0 < m)

/-- The `head_on` conflict record built by `detect_conflicts`. -/
def headOnConflict (track : Track) (t1 t2 : Train) : Conflict :=
  { train1_id := t1.id, train2_id := t2.id, track_id := track.id,
    conflict_type := "head_on",
    estimated_collision_time_minutes := calculate_meeting_time t1 t2,
    severity := 10 }

/-- The `overtaking` conflict record built by `detect_conflicts`; the
source divides by the average velocity `(v1+v2)/2` with no zero guard
(ℚ division is total with `x / 0 = 0`). -/
def overtakingConflict (track : Track) (t1 t2 : Train) : Conflict :=
  { train1_id := t1.id, train2_id := t2.id, track_id := track.id,
    conflict_type := "overtaking",
    estimated_collision_time_minutes :=
      some (|t1.position_km - t2.position_km|
              / ((t1.velocity_kmh + t2.velocity_kmh) / 2) * 60),
    severity := 5 }

/-- The per-pair branch of `detect_conflicts`. -/
def pairConflict (track : Track) (t1 t2 : Train) : List Conflict :=
  if track.is_single_track then
    if check_single_track_collision t1 t2 track then [headOnConflict track t1 t2]
    else []
  else
    if |t1.position_km - t2.position_km| < 2 then [overtakingConflict track t1 t2]
    else []

/-- The `capacity_exceeded` record built by `detect_conflicts`. -/
def capacityConflictFor (track : Track) (tid : Int) : Conflict :=
  { train1_id := tid, train2_id := -1, track_id := track.id,
    conflict_type := "capacity_exceeded",
    estimated_collision_time_minutes := some 0, severity := 7 }

/-- The capacity branch of `detect_conflicts`; the source compares
`size() > static_cast<size_t>(capacity)`, so a negative capacity (cast
to a huge unsigned value) yields no conflicts. -/
def capacityConflicts (track : Track) (group : List Train) : List Conflict :=
  if 0 ≤ track.capacity ∧ track.capacity.toNat < group.length then
    ((group.map (fun t => t.id)).drop track.capacity.toNat).map
      (capacityConflictFor track)
  else []

/-- The trains grouped on a given track id (`trains_by_track`). -/
def groupFor (trains : List Train) (tid : Int) : List Train :=
  trains.filter (fun t => t.current_track == tid)

/-- All conflicts reported for one track's group of trains. -/
def trackConflicts (track : Track) (group : List Train) : List Conflict :=
  (ordPairs group).flatMap (fun p => pairConflict track p.1 p.2)
    ++ capacityConflicts track group

/-- The conflicts contributed by one key of the `trains_by_track`
grouping (the `if (!tracks_.count(track_id)) continue;` guard and the
per-track body). -/
def conflictsForKey (s : SchedulerState) (tid : Int) : List Conflict :=
  match findTrack s.tracks tid with
  | none => []
  | some track => trackConflicts track (groupFor s.trains tid)

/-- `RailwayScheduler::detect_conflicts`. -/
def detect_conflicts (s : SchedulerState) : List Conflict :=
  ((s.trains.map (fun t => t.current_track)).dedup).flatMap (conflictsForKey s)

/-- The body of the projection loop of
`RailwayScheduler::predict_future_conflicts`: advance by
`velocity_kmh / 60 * horizon` and clamp to the current track's length
(when that track exists). -/
def projectTrain (s : SchedulerState) (time_horizon_minutes : ℚ) (t : Train) : Train :=
  let distance_traveled := t.velocity_kmh / 60 * time_horizon_minutes
  let p := t.position_km + distance_traveled
  match findTrack s.tracks t.current_track with
  | some track => { t with position_km := min p track.length_km }
  | none => { t with position_km := p }

/-- The time-projected snapshot of the network (what the specification
calls re-running detection against the projected snapshot). -/
def projectedState (s : SchedulerState) (time_horizon_minutes : ℚ) : SchedulerState :=
  { s with trains := s.trains.map (projectTrain s time_horizon_minutes) }

/-- `RailwayScheduler::predict_future_conflicts`: the source computes
the projected positions into `future_trains` and then returns the empty
vector without running any detection on them. -/
def predict_future_conflicts (s : SchedulerState) (time_horizon_minutes : ℚ) :
    List Conflict :=
  let _future_trains := s.trains.map (projectTrain s time_horizon_minutes)
  []

/-- In-place update of the train stored under a key in the `trains_`
map (`trains_[id] = ...` on an existing key). -/
def updateTrain (trains : List Train) (tid : Int) (f : Train → Train) : List Train :=
  trains.map (fun t => if t.id == tid then f t else t)

/-- The erase-remove idiom deregistering `train_id` from the active
list of the track stored under `track_id`. -/
def removeFromTrack (tracks : List Track) (track_id train_id : Int) : List Track :=
  tracks.map (fun tk =>
    if tk.id == track_id then
      { tk with active_train_ids := tk.active_train_ids.filter (fun i => !(i == train_id)) }
    else tk)

/-- The `push_back` registering `train_id` on the active list of the
track stored under `track_id` (a no-op when no such track exists,
mirroring the `tracks_.count` guard). -/
def addToTrack (tracks : List Track) (track_id train_id : Int) : List Track :=
  tracks.map (fun tk =>
    if tk.id == track_id then
      { tk with active_train_ids := tk.active_train_ids ++ [train_id] }
    else tk)

/-- One iteration of the `RailwayScheduler::apply_adjustments` loop. -/
def applyAdjustment (s : SchedulerState) (adj : ScheduleAdjustment) : SchedulerState :=
  match findTrain s.trains adj.train_id with
  | none => s
  | some train =>
    let train1 : Train :=
      { train with
        scheduled_arrival_minutes := train.scheduled_arrival_minutes + adj.time_adjustment_minutes,
        is_delayed := if 0 < adj.time_adjustment_minutes then true else train.is_delayed,
        delay_minutes :=
          if 0 < adj.time_adjustment_minutes then train.delay_minutes + adj.time_adjustment_minutes
          else train.delay_minutes }
    if 0 ≤ adj.new_track_id ∧ adj.new_track_id ≠ train.current_track then
      let tracks1 := removeFromTrack s.tracks train.current_track train.id
      let train2 := { train1 with current_track := adj.new_track_id }
      let tracks2 := addToTrack tracks1 adj.new_track_id train.id
      { s with trains := updateTrain s.trains adj.train_id (fun _ => train2), tracks := tracks2 }
    else
      { s with trains := updateTrain s.trains adj.train_id (fun _ => train1) }

/-- `RailwayScheduler::apply_adjustments`. -/
def apply_adjustments (s : SchedulerState) (adjustments : List ScheduleAdjustment) :
    SchedulerState :=
  adjustments.foldl applyAdjustment s

/-- `RailwayScheduler::add_train`. -/
def add_train (s : SchedulerState) (train : Train) : SchedulerState :=
  let trains' :=
    if (findTrain s.trains train.id).isSome then updateTrain s.trains train.id (fun _ => train)
    else s.trains ++ [train]
  { s with trains := trains', tracks := addToTrack s.tracks train.current_track train.id }

/-- `RailwayScheduler::remove_train`: a silent no-op on an unknown id. -/
def remove_train (s : SchedulerState) (train_id : Int) : SchedulerState :=
  match findTrain s.trains train_id with
  | none => s
  | some train =>
    let trains' := s.trains.filter (fun t => !(t.id == train_id))
    { s with trains := trains',
             tracks := removeFromTrack s.tracks train.current_track train_id }

/-- `RailwayScheduler::update_train_state`: a silent no-op on an unknown
id (the `last_update` timestamp is not modelled). -/
def update_train_state (s : SchedulerState) (train_id : Int)
    (position_km velocity_kmh : ℚ) (is_delayed : Bool) : SchedulerState :=
  match findTrain s.trains train_id with
  | none => s
  | some _ =>
    { s with trains := updateTrain s.trains train_id (fun t =>
        { t with position_km := position_km, velocity_kmh := velocity_kmh,
                 is_delayed := is_delayed }) }

/-- The synthetic intermediate stations of
`ConflictResolver::is_near_station`: one every 50 km strictly inside the
track (`for (station_pos = 50.0; station_pos < length_km; station_pos += 50.0)`). -/
def stationPositions (length_km : ℚ) : List ℚ :=
  (List.range (Nat.ceil (length_km / 50))).filterMap (fun i =>
    let p : ℚ := 50 * ((i : ℚ) + 1)
    if p < length_km then some p else none)

/-- `ConflictResolver::is_near_station`: distance to either endpoint or
to any synthetic intermediate station is at most `max_distance_km`. -/
def is_near_station (train : Train) (track : Track) (max_distance_km : ℚ) : Bool :=
  let distance_to_start := |train.position_km|
  let distance_to_end := |train.position_km - track.length_km|
  let min_distance := (stationPositions track.length_km).foldl
    (fun m p => min m |train.position_km - p|) (min distance_to_start distance_to_end)
  decide (min_distance ≤ max_distance_km)

/-- The acceptance test of `ConflictResolver::find_alternative_track`:
not the current track, connects to the train's destination, occupancy
strictly below capacity, and no downgrade from multi-track to
single-track. -/
def altPred (current_track : Track) (current_track_id : Int) (trains : List Train)
    (train : Train) (tk : Track) : Bool :=
  !(tk.id == current_track_id) &&
  tk.station_ids.contains train.destination_station &&
  decide (((trains.filter (fun t => t.current_track == tk.id)).length : Int) < tk.capacity) &&
  !(tk.is_single_track && !current_track.is_single_track)

/-- `ConflictResolver::find_alternative_track`: the first track passing
`altPred`, or `-1`. -/
def find_alternative_track (train : Train) (current_track_id : Int)
    (tracks : List Track) (trains : List Train) : Int :=
  match findTrack tracks current_track_id with
  | none => -1
  | some current_track =>
    match tracks.find? (altPred current_track current_track_id trains train) with
    | some tk => tk.id
    | none => -1

/-- The `lower_priority_train` selection of `resolve_by_priority`
(`t1_lower_priority = t1.priority < t2.priority`; on equal priorities
`t2` is selected). -/
def lowerPriorityTrain (t1 t2 : Train) : Train :=
  if t1.priority < t2.priority then t1 else t2

/-- The `higher_priority_train` selection of `resolve_by_priority`. -/
def higherPriorityTrain (t1 t2 : Train) : Train :=
  if t1.priority < t2.priority then t2 else t1

/-- The adjustment built by `ConflictResolver::resolve_by_priority` for
one two-train conflict whose two trains were both found. -/
def mkAdjustment (trains : List Train) (tracks : List Track) (c : Conflict)
    (t1 t2 : Train) : ScheduleAdjustment :=
  let lower := lowerPriorityTrain t1 t2
  let higher := higherPriorityTrain t1 t2
  let alternative : Int :=
    if c.track_id = lower.current_track ∧ c.track_id = higher.current_track then
      match findTrack tracks c.track_id with
      | some current_track =>
        if is_near_station lower current_track 5 then
          find_alternative_track lower c.track_id tracks trains
        else -1
      | none => -1
    else -1
  if 0 ≤ alternative then
    { train_id := lower.id, time_adjustment_minutes := 1/2, new_track_id := alternative,
      new_platform := -1,
      reason := "Track switch at station to avoid conflict (priority-based)",
      confidence := 9/10 }
  else
    { train_id := lower.id, time_adjustment_minutes := 5 * c.severity, new_track_id := -1,
      new_platform := -1,
      reason :=
        match findTrack tracks c.track_id with
        | some current_track =>
          if is_near_station lower current_track 5 then
            "Time delay to avoid conflict (no alternative track available at station)"
          else "Time delay to avoid conflict (not near station for track switch)"
        | none => "Time delay to avoid conflict (not near station for track switch)",
      confidence := 3/4 }

/-- One iteration of the `resolve_by_priority` loop: capacity conflicts
(negative `train2_id`) are skipped, and a missing train id makes
`trains.at` throw `std::out_of_range`, modelled as `none`. -/
def resolveOneConflict (trains : List Train) (tracks : List Track) (c : Conflict) :
    Option (List ScheduleAdjustment) :=
  if c.train2_id < 0 then some []
  else
    match findTrain trains c.train1_id, findTrain trains c.train2_id with
    | some t1, some t2 => some [mkAdjustment trains tracks c t1 t2]
    | _, _ => none

/-- `ConflictResolver::resolve_by_priority`; `none` models the uncaught
`std::out_of_range` escaping the loop. -/
def resolve_by_priority (conflicts : List Conflict) (trains : List Train)
    (tracks : List Track) : Option (List ScheduleAdjustment) :=
  match conflicts with
  | [] => some []
  | c :: rest => do
    let a ← resolveOneConflict trains tracks c
    let l ← resolve_by_priority rest trains tracks
    pure (a ++ l)

/-- The station-track search of
`ConflictResolver::resolve_single_track_conflicts`: among multi-track
tracks other than the conflicted one that connect to the train's
destination, pick the one with the fewest active trains (strictly below
9999 and below its capacity), first-seen winning ties; `-1` if none. -/
def bestStationTrack (train : Train) (track_id : Int) (tracks : List Track) : Int :=
  (tracks.foldl
    (fun (acc : Int × Int) tk =>
      if tk.id == track_id then acc
      else if tk.is_single_track then acc
      else
        let connects := tk.station_ids.contains train.destination_station
        let train_count : Int := tk.active_train_ids.length
        if connects ∧ train_count < acc.1 ∧ train_count < tk.capacity then
          (train_count, tk.id)
        else acc)
    (9999, -1)).2

/-- One step of the priority scan of strategy 2 in
`resolve_single_track_conflicts` (`max_priority` / `priority_train_id`
accumulator). -/
def priorityStep (trains : List Train) (acc : Int × Int) (tid : Int) : Int × Int :=
  match findTrain trains tid with
  | some t => if acc.1 < t.priority then (t.priority, tid) else acc
  | none => acc

/-- The priority scan of strategy 2 in `resolve_single_track_conflicts`:
the first implicated train with the (positive) maximal priority, `-1` if
none beats the initial `max_priority = 0`. -/
def priorityTrainId (implicated : List Int) (trains : List Train) : Int :=
  (implicated.foldl (priorityStep trains) (0, -1)).2

/-- The sorted, de-duplicated list of train ids implicated in a track's
conflicts (`std::sort` + `std::unique`). -/
def implicatedIds (track_conflicts : List Conflict) : List Int :=
  ((track_conflicts.flatMap (fun c =>
      c.train1_id :: (if c.train2_id ≠ -1 then [c.train2_id] else []))).insertionSort
    (fun a b => a ≤ b)).dedup

/-- The wait adjustment of strategy 2 in
`resolve_single_track_conflicts`. -/
def waitAdjustment (tid priority_train_id : Int) (implicated_count : Nat) :
    ScheduleAdjustment :=
  { train_id := tid, new_track_id := -1,
    time_adjustment_minutes := 8 * ((implicated_count - 1 : Nat) : ℚ),
    new_platform := -1,
    reason := "Single-track conflict: waiting for priority train "
      ++ toString priority_train_id,
    confidence := 7/10 }

/-- The per-implicated-train body of the `resolve_single_track_conflicts`
loop. -/
def processImplicatedTrain (track : Track) (track_id : Int) (implicated : List Int)
    (trains : List Train) (tracks : List Track) (tid : Int) : List ScheduleAdjustment :=
  match findTrain trains tid with
  | none => []
  | some train =>
    let diverted : Option Int :=
      if is_near_station train track 10 then
        let b := bestStationTrack train track_id tracks
        if b ≠ -1 then some b else none
      else none
    match diverted with
    | some b =>
      [{ train_id := tid, new_track_id := b, time_adjustment_minutes := 1,
         new_platform := -1,
         reason := "Single-track conflict: diverted to station track " ++ toString b,
         confidence := 85/100 }]
    | none =>
      let p := priorityTrainId implicated trains
      if tid ≠ p then [waitAdjustment tid p implicated.length] else []

/-- The per-track body of the `resolve_single_track_conflicts` loop. -/
def resolveSingleTrack (track : Track) (track_id : Int) (track_conflicts : List Conflict)
    (trains : List Train) (tracks : List Track) : List ScheduleAdjustment :=
  if track.is_single_track ∧ 1 ≤ track_conflicts.length then
    let ids := implicatedIds track_conflicts
    ids.flatMap (processImplicatedTrain track track_id ids trains tracks)
  else []

/-- `ConflictResolver::resolve_single_track_conflicts`; when no
adjustment was produced it falls back to `resolve_by_priority` (whose
possible `std::out_of_range` is again `none`). -/
def resolve_single_track_conflicts (conflicts : List Conflict) (trains : List Train)
    (tracks : List Track) : Option (List ScheduleAdjustment) :=
  let adjustments := ((conflicts.map (fun c => c.track_id)).dedup).flatMap (fun tid =>
    match findTrack tracks tid with
    | none => []
    | some track =>
      resolveSingleTrack track tid (conflicts.filter (fun c => c.track_id == tid)) trains tracks)
  if adjustments.isEmpty then resolve_by_priority conflicts trains tracks
  else some adjustments

/-- Invariant I1, first half: every train is registered on the active
list of an existing track whose id is its `current_track`. -/
def TrackMem (s : SchedulerState) : Prop :=
  ∀ t ∈ s.trains, ∃ tk ∈ s.tracks, tk.id = t.current_track ∧ t.id ∈ tk.active_train_ids

/-- Invariant I1, second half: no track's active list contains a train
whose `current_track` differs from that track's id. -/
def TrackSound (s : SchedulerState) : Prop :=
  ∀ tk ∈ s.tracks, ∀ t ∈ s.trains, t.id ∈ tk.active_train_ids → t.current_track = tk.id

/-- The track-membership invariant I1 of the specification. -/
def InvariantI1 (s : SchedulerState) : Prop := TrackMem s ∧ TrackSound s

instance (s : SchedulerState) : Decidable (TrackMem s) := by
  unfold TrackMem; infer_instance

instance (s : SchedulerState) : Decidable (TrackSound s) := by
  unfold TrackSound; infer_instance

instance (s : SchedulerState) : Decidable (InvariantI1 s) := by
  unfold InvariantI1; infer_instance

/-! Concrete network states used by the witnesses and counterexamples. -/

/-- Witness input for C1: one two-train conflict and one capacity
conflict. -/
def c1Trains : List Train :=
  [{ id := 1, current_track := 1, position_km := 3, velocity_kmh := 70, priority := 8 },
   { id := 2, current_track := 1, position_km := 4, velocity_kmh := 60, priority := 4 }]

/-- Witness tracks for C1. -/
def c1Tracks : List Track :=
  [{ id := 1, length_km := 40, is_single_track := false, capacity := 1,
     station_ids := [6, 7], active_train_ids := [1, 2] }]

/-- Witness conflicts for C1. -/
def c1Conflicts : List Conflict :=
  [{ train1_id := 1, train2_id := 2, track_id := 1, conflict_type := "overtaking",
     estimated_collision_time_minutes := some 1, severity := 5 },
   { train1_id := 2, train2_id := -1, track_id := 1, conflict_type := "capacity_exceeded",
     estimated_collision_time_minutes := some 0, severity := 7 }]

/-- Witness track for C2: a 50 km single track. -/
def c2Track : Track :=
  { id := 1, length_km := 50, is_single_track := true, capacity := 5,
    active_train_ids := [1, 2] }

/-- Witness train 1 for C2 (first half, 100 km/h). -/
def c2Train1 : Train :=
  { id := 1, current_track := 1, position_km := 20, velocity_kmh := 100 }

/-- Witness train 2 for C2 (second half, 80 km/h, meeting in 10/3 min). -/
def c2Train2 : Train :=
  { id := 2, current_track := 1, position_km := 30, velocity_kmh := 80 }

/-- Witness state for C2. -/
def c2State : SchedulerState :=
  { trains := [c2Train1, c2Train2], tracks := [c2Track] }

/-- Counterexample state for C3: invariant I1 holds, one train on one
track. -/
def c3State : SchedulerState :=
  { trains := [{ id := 10, current_track := 1 }],
    tracks := [{ id := 1, length_km := 50, capacity := 3, active_train_ids := [10] }] }

/-- Counterexample adjustment for C3: moves train 10 to the nonexistent
track 99. -/
def c3BadAdjustment : ScheduleAdjustment :=
  { train_id := 10, time_adjustment_minutes := 0, new_track_id := 99 }

/-- Witness state for the amended C3: two real tracks. -/
def c3WitnessState : SchedulerState :=
  { trains := [{ id := 10, current_track := 1 }],
    tracks := [{ id := 1, length_km := 50, capacity := 3, active_train_ids := [10] },
               { id := 2, length_km := 60, capacity := 3, active_train_ids := [] }] }

/-- Witness adjustment for the amended C3: moves train 10 to the
existing track 2. -/
def c3GoodAdjustment : ScheduleAdjustment :=
  { train_id := 10, time_adjustment_minutes := 5, new_track_id := 2 }

/-- Failing input for C4: no current conflict, but train 1 reaches
train 2 within the 10-minute horizon. -/
def c4State : SchedulerState :=
  { trains := [{ id := 1, current_track := 1, position_km := 0, velocity_kmh := 60 },
               { id := 2, current_track := 1, position_km := 10, velocity_kmh := 0 }],
    tracks := [{ id := 1, length_km := 100, is_single_track := false, capacity := 5 }] }

/-- Counterexample state for C5: two trains 1 km apart at 30 km/h each
on a double-track segment. -/
def c5State : SchedulerState :=
  { trains := [{ id := 1, current_track := 1, position_km := 0, velocity_kmh := 30 },
               { id := 2, current_track := 1, position_km := 1, velocity_kmh := 30 }],
    tracks := [{ id := 1, length_km := 100, is_single_track := false, capacity := 5 }] }

/-- The overtaking conflict the code reports on `c5State`: the stored
time is `1 / ((30+30)/2) * 60 = 2`, not the claimed
`1 / (30+30) * 60 = 1`. -/
def c5Track : Track :=
  { id := 1, length_km := 100, is_single_track := false, capacity := 5 }

/-- First train of `c5State`. -/
def c5Train1 : Train := { id := 1, current_track := 1, position_km := 0, velocity_kmh := 30 }

/-- Second train of `c5State`. -/
def c5Train2 : Train := { id := 2, current_track := 1, position_km := 1, velocity_kmh := 30 }

/-- Witness state for C6 (Scenario 2): a capacity-2 double-track
segment with 3 trains. -/
def c6Track : Track :=
  { id := 1, length_km := 100, is_single_track := false, capacity := 2 }

/-- Witness state for C6. -/
def c6State : SchedulerState :=
  { trains := [{ id := 11, current_track := 1, position_km := 0 },
               { id := 12, current_track := 1, position_km := 10 },
               { id := 13, current_track := 1, position_km := 20 }],
    tracks := [c6Track] }

/-- Witness conflicts for C7 (Scenario 5): three trains implicated on
single track 1. -/
def c7Conflicts : List Conflict :=
  [{ train1_id := 1, train2_id := 2, track_id := 1, conflict_type := "head_on",
     estimated_collision_time_minutes := some 1, severity := 10 },
   { train1_id := 2, train2_id := 3, track_id := 1, conflict_type := "head_on",
     estimated_collision_time_minutes := some 1, severity := 10 }]

/-- Witness trains for C7: priorities {9, 5, 5}, all far from any
station of the 200 km single track. -/
def c7Trains : List Train :=
  [{ id := 1, current_track := 1, position_km := 25, velocity_kmh := 50, priority := 9 },
   { id := 2, current_track := 1, position_km := 75, velocity_kmh := 50, priority := 5 },
   { id := 3, current_track := 1, position_km := 125, velocity_kmh := 50, priority := 5 }]

/-- Witness track for C7: a 200 km single track. -/
def c7Track : Track :=
  { id := 1, length_km := 200, is_single_track := true, capacity := 5,
    active_train_ids := [1, 2, 3] }

/-- Witness track list for C7. -/
def c7Tracks : List Track := [c7Track]

/-- Counterexample conflict for C8 (also used for the amended witness):
a two-train conflict on track 1. -/
def c8Conflict : Conflict :=
  { train1_id := 1, train2_id := 2, track_id := 1, conflict_type := "overtaking",
    estimated_collision_time_minutes := some 1, severity := 5 }

/-- Counterexample trains for C8: the lower-priority train 2 sits at
km 20 of the 40 km track, 20 km from every station. -/
def c8Trains : List Train :=
  [{ id := 1, current_track := 1, position_km := 18, velocity_kmh := 80, priority := 9,
     destination_station := 7 },
   { id := 2, current_track := 1, position_km := 20, velocity_kmh := 80, priority := 5,
     destination_station := 7 }]

/-- Counterexample tracks for C8: track 2 is a valid alternative
(connects to station 7, occupancy 0 < capacity 2, no downgrade). -/
def c8Tracks : List Track :=
  [{ id := 1, length_km := 40, is_single_track := false, capacity := 5,
     station_ids := [6, 7], active_train_ids := [1, 2] },
   { id := 2, length_km := 40, is_single_track := false, capacity := 2,
     station_ids := [6, 7], active_train_ids := [] }]

/-- The higher-priority train of `c8Trains`. -/
def c8Train1 : Train :=
  { id := 1, current_track := 1, position_km := 18, velocity_kmh := 80, priority := 9,
    destination_station := 7 }

/-- The lower-priority train of `c8Trains`. -/
def c8LowerTrain : Train :=
  { id := 2, current_track := 1, position_km := 20, velocity_kmh := 80, priority := 5,
    destination_station := 7 }

/-- The conflicted track of the C8 inputs. -/
def c8CurrentTrack : Track :=
  { id := 1, length_km := 40, is_single_track := false, capacity := 5,
    station_ids := [6, 7], active_train_ids := [1, 2] }

/-- The lower-priority train of `c8NearTrains` (2 km from the station
at km 0). -/
def c8NearLower : Train :=
  { id := 2, current_track := 1, position_km := 2, velocity_kmh := 80, priority := 5,
    destination_station := 7 }

/-- Witness trains for the amended C8: train 2 now sits 2 km from the
station at km 0. -/
def c8NearTrains : List Train :=
  [{ id := 1, current_track := 1, position_km := 18, velocity_kmh := 80, priority := 9,
     destination_station := 7 },
   { id := 2, current_track := 1, position_km := 2, velocity_kmh := 80, priority := 5,
     destination_station := 7 }]

/-- Witness state for C9. -/
def c9State : SchedulerState :=
  { trains := [{ id := 1, current_track := 1, position_km := 3 }],
    tracks := [{ id := 1, length_km := 50, capacity := 3, active_train_ids := [1] }] }

/-- Failing input for C10: the two-train conflict references the absent
train id 5. -/
def c10BadConflict : Conflict :=
  { train1_id := 1, train2_id := 5, track_id := 1, conflict_type := "overtaking",
    estimated_collision_time_minutes := some 1, severity := 5 }

/-- Trains list for C10 (only train 1 exists). -/
def c10Trains : List Train := [{ id := 1, current_track := 1 }]

/-- Tracks list for C10. -/
def c10Tracks : List Track := [{ id := 1, length_km := 40, capacity := 5 }]

/-! Helper lemmas. -/

theorem findTrack_eq_some_of_mem {tracks : List Track} {tk : Track}
    (hn : (tracks.map Track.id).Nodup) (h : tk ∈ tracks) :
    findTrack tracks tk.id = some tk := by
  induction tracks with
  | nil => cases h
  | cons x xs ih =>
    rw [List.map_cons, List.nodup_cons] at hn
    rcases List.mem_cons.mp h with rfl | hmem
    · unfold findTrack
      exact List.find?_cons_of_pos _ (by simp)
    · have hx : (x.id == tk.id) = false := by
        refine beq_eq_false_iff_ne.mpr (fun he => hn.1 ?_)
        exact he ▸ List.mem_map_of_mem Track.id hmem
      unfold findTrack
      rw [List.find?_cons_of_neg _ (by simp [hx])]
      exact ih hn.2 hmem

theorem findTrack_eq_some_inv {tracks : List Track} {tk : Track} {i : Int}
    (h : findTrack tracks i = some tk) : tk ∈ tracks ∧ tk.id = i :=
  ⟨List.mem_of_find?_eq_some h, by simpa using List.find?_some h⟩

theorem findTrain_eq_some_of_mem {trains : List Train} {t : Train}
    (hn : (trains.map Train.id).Nodup) (h : t ∈ trains) :
    findTrain trains t.id = some t := by
  induction trains with
  | nil => cases h
  | cons x xs ih =>
    rw [List.map_cons, List.nodup_cons] at hn
    rcases List.mem_cons.mp h with rfl | hmem
    · unfold findTrain
      exact List.find?_cons_of_pos _ (by simp)
    · have hx : (x.id == t.id) = false := by
        refine beq_eq_false_iff_ne.mpr (fun he => hn.1 ?_)
        exact he ▸ List.mem_map_of_mem Train.id hmem
      unfold findTrain
      rw [List.find?_cons_of_neg _ (by simp [hx])]
      exact ih hn.2 hmem

theorem findTrain_eq_some_inv {trains : List Train} {t : Train} {i : Int}
    (h : findTrain trains i = some t) : t ∈ trains ∧ t.id = i :=
  ⟨List.mem_of_find?_eq_some h, by simpa using List.find?_some h⟩

theorem mem_of_mem_ordPairs {α : Type} {a b : α} :
    ∀ {l : List α}, (a, b) ∈ ordPairs l → a ∈ l ∧ b ∈ l := by
  intro l
  induction l with
  | nil => intro h; cases h
  | cons x xs ih =>
    intro h
    rcases List.mem_append.mp h with hl | hr
    · obtain ⟨y, hy, he⟩ := List.mem_map.mp hl
      have hax : a = x := (congrArg Prod.fst he).symm
      have hby : b = y := (congrArg Prod.snd he).symm
      subst hax; subst hby
      exact ⟨List.mem_cons_self _ _, List.mem_cons_of_mem _ hy⟩
    · obtain ⟨ha, hb⟩ := ih hr
      exact ⟨List.mem_cons_of_mem _ ha, List.mem_cons_of_mem _ hb⟩

theorem ordPairs_cover {α : Type} {a b : α} :
    ∀ {l : List α}, a ∈ l → b ∈ l → a ≠ b →
      (a, b) ∈ ordPairs l ∨ (b, a) ∈ ordPairs l := by
  intro l
  induction l with
  | nil => intro h; cases h
  | cons x xs ih =>
    intro ha hb hne
    rcases List.mem_cons.mp ha with rfl | ha'
    · rcases List.mem_cons.mp hb with rfl | hb'
      · exact absurd rfl hne
      · exact Or.inl (List.mem_append_left _ (List.mem_map_of_mem _ hb'))
    · rcases List.mem_cons.mp hb with rfl | hb'
      · exact Or.inr (List.mem_append_left _ (List.mem_map_of_mem _ ha'))
      · rcases ih ha' hb' hne with h | h
        · exact Or.inl (List.mem_append_right _ h)
        · exact Or.inr (List.mem_append_right _ h)

theorem filter_flatMap {α β : Type} (l : List α) (f : α → List β) (p : β → Bool) :
    (l.flatMap f).filter p = l.flatMap (fun a => (f a).filter p) := by
  induction l with
  | nil => rfl
  | cons x xs ih => simp [List.flatMap_cons, List.filter_append, ih]

theorem flatMap_eq_single {α β : Type} {G : α → List β} :
    ∀ {keys : List α} {k : α}, keys.Nodup → k ∈ keys →
      (∀ k' ∈ keys, k' ≠ k → G k' = []) → keys.flatMap G = G k := by
  intro keys
  induction keys with
  | nil => intro k _ h; cases h
  | cons x xs ih =>
    intro k hn hk hz
    rw [List.nodup_cons] at hn
    rcases List.mem_cons.mp hk with rfl | hk'
    · have hrest : xs.flatMap G = [] := by
        refine List.flatMap_eq_nil_iff.mpr (fun k' hk' => ?_)
        refine hz k' (List.mem_cons_of_mem _ hk') (fun he => hn.1 (he ▸ hk'))
      rw [List.flatMap_cons, hrest, List.append_nil]
    · have hx : G x = [] := by
        refine hz x (List.mem_cons_self x xs) (fun he => hn.1 (he ▸ hk'))
      rw [List.flatMap_cons, hx, List.nil_append]
      exact ih hn.2 hk' (fun k' h h' => hz k' (List.mem_cons_of_mem _ h) h')

theorem mem_pairConflict {track : Track} {a b : Train} {c : Conflict}
    (h : c ∈ pairConflict track a b) :
    (track.is_single_track = true ∧ check_single_track_collision a b track = true
        ∧ c = headOnConflict track a b)
    ∨ (track.is_single_track = false ∧ |a.position_km - b.position_km| < 2
        ∧ c = overtakingConflict track a b) := by
  unfold pairConflict at h
  rcases hs : track.is_single_track with _ | _
  · rw [hs] at h
    simp only [Bool.false_eq_true, if_false] at h
    split at h
    · exact Or.inr ⟨rfl, by assumption, List.mem_singleton.mp h⟩
    · cases h
  · rw [hs] at h
    simp only [if_true] at h
    split at h
    · exact Or.inl ⟨rfl, by assumption, List.mem_singleton.mp h⟩
    · cases h

theorem track_id_of_mem_pairConflict {track : Track} {a b : Train} {c : Conflict}
    (h : c ∈ pairConflict track a b) : c.track_id = track.id := by
  rcases mem_pairConflict h with ⟨-, -, rfl⟩ | ⟨-, -, rfl⟩ <;> rfl

theorem conflict_type_of_mem_pairConflict {track : Track} {a b : Train} {c : Conflict}
    (h : c ∈ pairConflict track a b) :
    c.conflict_type = "head_on" ∨ c.conflict_type = "overtaking" := by
  rcases mem_pairConflict h with ⟨-, -, rfl⟩ | ⟨-, -, rfl⟩
  · exact Or.inl rfl
  · exact Or.inr rfl

theorem mem_capacityConflicts {track : Track} {group : List Train} {c : Conflict}
    (h : c ∈ capacityConflicts track group) :
    c.conflict_type = "capacity_exceeded" ∧ c.track_id = track.id := by
  unfold capacityConflicts at h
  split at h
  · obtain ⟨tid, -, rfl⟩ := List.mem_map.mp h
    exact ⟨rfl, rfl⟩
  · cases h

theorem calculate_meeting_time_comm (t1 t2 : Train) :
    calculate_meeting_time t1 t2 = calculate_meeting_time t2 t1 := by
  unfold calculate_meeting_time
  rw [abs_sub_comm, add_comm]

theorem check_single_track_collision_iff (t1 t2 : Train) (track : Track) :
    check_single_track_collision t1 t2 track = true ↔
      (¬((t1.position_km < track.length_km / 2) ↔ (t2.position_km < track.length_km / 2))
        ∧ ∃ m, calculate_meeting_time t1 t2 = some m ∧ 0 < m ∧ m < 5) := by
  unfold check_single_track_collision
  by_cases hf : (t1.position_km < track.length_km / 2) ↔ (t2.position_km < track.length_km / 2)
  · have hd : (decide (t1.position_km < track.length_km / 2))
        = (decide (t2.position_km < track.length_km / 2)) := by
      exact decide_eq_decide.mpr hf
    simp [hd, hf]
  · have hd : (decide (t1.position_km < track.length_km / 2))
        ≠ (decide (t2.position_km < track.length_km / 2)) := by
      intro he; exact hf (decide_eq_decide.mp he)
    simp only [if_neg hd]
    rcases hm : calculate_meeting_time t1 t2 with _ | m
    · simp [hf]
    · simp only [Bool.and_eq_true, decide_eq_true_eq]
      constructor
      · rintro ⟨h5, h0⟩
        exact ⟨hf, m, rfl, h0, h5⟩
      · rintro ⟨-, m', hm', h0, h5⟩
        cases Option.some.injEq .. ▸ hm'
        exact ⟨h5, h0⟩

theorem check_single_track_collision_comm (t1 t2 : Train) (track : Track) :
    check_single_track_collision t1 t2 track = check_single_track_collision t2 t1 track := by
  unfold check_single_track_collision
  rw [calculate_meeting_time_comm]
  by_cases hf : (decide (t1.position_km < track.length_km / 2))
      = (decide (t2.position_km < track.length_km / 2))
  · rw [if_pos hf, if_pos hf.symm]
  · rw [if_neg hf, if_neg (fun he => hf he.symm)]

theorem mem_detect_conflicts {s : SchedulerState} {c : Conflict} :
    c ∈ detect_conflicts s ↔
      ∃ tid ∈ (s.trains.map (fun t => t.current_track)).dedup,
        c ∈ conflictsForKey s tid := by
  unfold detect_conflicts
  exact List.mem_flatMap

theorem mem_groupFor {trains : List Train} {tid : Int} {t : Train} :
    t ∈ groupFor trains tid ↔ t ∈ trains ∧ t.current_track = tid := by
  unfold groupFor
  rw [List.mem_filter]
  simp

/-- Inversion for a `head_on` record found in the detector output: under
unique ids it can only come from the single-track pair branch on its own
two trains and track. -/
theorem head_on_mem_inv {s : SchedulerState} {tk : Track} {t1 t2 : Train}
    (hnt : (s.trains.map Train.id).Nodup) (hnk : (s.tracks.map Track.id).Nodup)
    (htk : tk ∈ s.tracks) (h1 : t1 ∈ s.trains) (h2 : t2 ∈ s.trains)
    (h : headOnConflict tk t1 t2 ∈ detect_conflicts s) :
    check_single_track_collision t1 t2 tk = true := by
  obtain ⟨tid, -, hc⟩ := mem_detect_conflicts.mp h
  unfold conflictsForKey at hc
  rcases hfind : findTrack s.tracks tid with _ | track
  · rw [hfind] at hc; cases hc
  · rw [hfind] at hc
    unfold trackConflicts at hc
    rcases List.mem_append.mp hc with hpair | hcap
    · obtain ⟨p, hpmem, hp⟩ := List.mem_flatMap.mp hpair
      rcases mem_pairConflict hp with ⟨-, hchk, heq⟩ | ⟨-, -, heq⟩
      · have hfields := heq
        unfold headOnConflict at hfields
        rw [Conflict.mk.injEq] at hfields
        obtain ⟨hid1, hid2, htrk, -, -, -⟩ := hfields
        have hpmem' : (p.1, p.2) ∈ ordPairs (groupFor s.trains tid) := hpmem
        have hp1 : p.1 ∈ s.trains :=
          List.mem_of_mem_filter (mem_of_mem_ordPairs hpmem').1
        have hp2 : p.2 ∈ s.trains :=
          List.mem_of_mem_filter (mem_of_mem_ordPairs hpmem').2
        have he1 : p.1 = t1 := List.inj_on_of_nodup_map hnt hp1 h1 hid1.symm
        have he2 : p.2 = t2 := List.inj_on_of_nodup_map hnt hp2 h2 hid2.symm
        have htr : track = tk := by
          obtain ⟨hmem, -⟩ := findTrack_eq_some_inv hfind
          exact List.inj_on_of_nodup_map hnk hmem htk htrk.symm
        rw [← he1, ← he2, ← htr]
        exact hchk
      · exfalso
        have hcontra : "head_on" = "overtaking" := by
          have hty := congrArg Conflict.conflict_type heq
          simp only [headOnConflict, overtakingConflict] at hty
          exact hty
        simp at hcontra
    · exfalso
      have := (mem_capacityConflicts hcap).1
      simp [headOnConflict] at this

/-- Inversion for an `overtaking` record found in the detector output. -/
theorem overtaking_mem_inv {s : SchedulerState} {tk : Track} {t1 t2 : Train}
    (hnt : (s.trains.map Train.id).Nodup)
    (h1 : t1 ∈ s.trains) (h2 : t2 ∈ s.trains)
    (h : overtakingConflict tk t1 t2 ∈ detect_conflicts s) :
    |t1.position_km - t2.position_km| < 2 := by
  obtain ⟨tid, -, hc⟩ := mem_detect_conflicts.mp h
  unfold conflictsForKey at hc
  rcases hfind : findTrack s.tracks tid with _ | track
  · rw [hfind] at hc; cases hc
  · rw [hfind] at hc
    unfold trackConflicts at hc
    rcases List.mem_append.mp hc with hpair | hcap
    · obtain ⟨p, hpmem, hp⟩ := List.mem_flatMap.mp hpair
      rcases mem_pairConflict hp with ⟨-, -, heq⟩ | ⟨-, hlt, heq⟩
      · exfalso
        have hcontra : "overtaking" = "head_on" := by
          have hty := congrArg Conflict.conflict_type heq
          simp only [headOnConflict, overtakingConflict] at hty
          exact hty
        simp at hcontra
      · have hfields := heq
        unfold overtakingConflict at hfields
        rw [Conflict.mk.injEq] at hfields
        obtain ⟨hid1, hid2, -, -, -, -⟩ := hfields
        have hpmem' : (p.1, p.2) ∈ ordPairs (groupFor s.trains tid) := hpmem
        have hp1 : p.1 ∈ s.trains :=
          List.mem_of_mem_filter (mem_of_mem_ordPairs hpmem').1
        have hp2 : p.2 ∈ s.trains :=
          List.mem_of_mem_filter (mem_of_mem_ordPairs hpmem').2
        have he1 : p.1 = t1 := List.inj_on_of_nodup_map hnt hp1 h1 hid1.symm
        have he2 : p.2 = t2 := List.inj_on_of_nodup_map hnt hp2 h2 hid2.symm
        rw [← he1, ← he2]
        exact hlt
    · exfalso
      have := (mem_capacityConflicts hcap).1
      simp [overtakingConflict] at this

/-- A pair-branch record reaches the detector output through its
grouping key. -/
theorem mem_detect_of_site {s : SchedulerState} {tk : Track} {a b : Train} {c : Conflict}
    (hnk : (s.tracks.map Track.id).Nodup) (htk : tk ∈ s.tracks)
    (hkey : tk.id ∈ (s.trains.map (fun t => t.current_track)).dedup)
    (hpair : (a, b) ∈ ordPairs (groupFor s.trains tk.id))
    (hc : c ∈ pairConflict tk a b) : c ∈ detect_conflicts s := by
  refine mem_detect_conflicts.mpr ⟨tk.id, hkey, ?_⟩
  unfold conflictsForKey
  rw [findTrack_eq_some_of_mem hnk htk]
  unfold trackConflicts
  exact List.mem_append_left _ (List.mem_flatMap.mpr ⟨(a, b), hpair, hc⟩)

theorem pairConflict_head_on_mem {track : Track} {t1 t2 : Train}
    (hs : track.is_single_track = true)
    (hchk : check_single_track_collision t1 t2 track = true) :
    headOnConflict track t1 t2 ∈ pairConflict track t1 t2 := by
  unfold pairConflict
  rw [hs, if_pos rfl, if_pos hchk]
  exact List.mem_singleton.mpr rfl

theorem pairConflict_overtaking_mem {track : Track} {t1 t2 : Train}
    (hs : track.is_single_track = false)
    (hlt : |t1.position_km - t2.position_km| < 2) :
    overtakingConflict track t1 t2 ∈ pairConflict track t1 t2 := by
  unfold pairConflict
  rw [hs]
  simp only [Bool.false_eq_true, if_false, if_pos hlt]
  exact List.mem_singleton.mpr rfl

theorem resolve_by_priority_eq_flatMap (trains : List Train) (tracks : List Track) :
    ∀ (conflicts : List Conflict),
      (∀ c ∈ conflicts, (resolveOneConflict trains tracks c).isSome) →
      resolve_by_priority conflicts trains tracks
        = some (conflicts.flatMap (fun c => (resolveOneConflict trains tracks c).getD [])) := by
  intro conflicts
  induction conflicts with
  | nil => intro _; rfl
  | cons c rest ih =>
    intro h
    obtain ⟨a, ha⟩ := Option.isSome_iff_exists.mp (h c (List.mem_cons_self _ _))
    have hrest := ih (fun c' hc' => h c' (List.mem_cons_of_mem _ hc'))
    simp only [resolve_by_priority, ha, hrest, Option.bind_eq_bind, Option.some_bind,
      List.flatMap_cons, Option.getD_some, pure]

theorem mkAdjustment_train_id (trains : List Train) (tracks : List Track) (c : Conflict)
    (t1 t2 : Train) :
    (mkAdjustment trains tracks c t1 t2).train_id = (lowerPriorityTrain t1 t2).id := by
  simp only [mkAdjustment, apply_ite ScheduleAdjustment.train_id, ite_self]

theorem find_alternative_track_nonneg {train : Train} {current_track_id : Int}
    {tracks : List Track} {trains : List Train} {ct : Track}
    (hct : findTrack tracks current_track_id = some ct)
    (hex : ∃ tk ∈ tracks, altPred ct current_track_id trains train tk = true)
    (hpos : ∀ tk ∈ tracks, 0 ≤ tk.id) :
    0 ≤ find_alternative_track train current_track_id tracks trains := by
  unfold find_alternative_track
  rw [hct]
  have hsome : (tracks.find? (altPred ct current_track_id trains train)).isSome := by
    rw [List.find?_isSome]
    obtain ⟨tk, h1, h2⟩ := hex
    exact ⟨tk, h1, h2⟩
  dsimp only
  rcases hf : tracks.find? (altPred ct current_track_id trains train) with _ | tk
  · rw [hf] at hsome; cases hsome
  · exact hpos tk (List.mem_of_find?_eq_some hf)

theorem priorityStep_foldl_lt {trains : List Train} {p : Int} :
    ∀ {l : List Int} {acc : Int × Int},
      (∀ tid ∈ l, ∀ t, findTrain trains tid = some t → t.priority < p) →
      acc.1 < p → (l.foldl (priorityStep trains) acc).1 < p := by
  intro l
  induction l with
  | nil => intro acc _ hacc; exact hacc
  | cons a l ih =>
    intro acc h hacc
    rw [List.foldl_cons]
    refine ih (fun tid ht t hf => h tid (List.mem_cons_of_mem _ ht) t hf) ?_
    unfold priorityStep
    rcases hf : findTrain trains a with _ | t
    · exact hacc
    · dsimp only
      split
      · exact h a (List.mem_cons_self _ _) t hf
      · exact hacc

theorem priorityStep_foldl_keep {trains : List Train} {top : Int} {pid : Int} :
    ∀ {l : List Int},
      (∀ tid ∈ l, ∀ t, findTrain trains tid = some t → t.priority < top) →
      l.foldl (priorityStep trains) (top, pid) = (top, pid) := by
  intro l
  induction l with
  | nil => intro _; rfl
  | cons a l ih =>
    intro h
    rw [List.foldl_cons]
    have hstep : priorityStep trains (top, pid) a = (top, pid) := by
      unfold priorityStep
      rcases hf : findTrain trains a with _ | t
      · rfl
      · dsimp only
        rw [if_neg (not_lt.mpr (le_of_lt (h a (List.mem_cons_self _ _) t hf)))]
    rw [hstep]
    exact ih (fun tid ht t hf => h tid (List.mem_cons_of_mem _ ht) t hf)

theorem priorityTrainId_eq {ids : List Int} {trains : List Train} {pid : Int} {pt : Train}
    (hn : ids.Nodup) (hmem : pid ∈ ids)
    (hfind : findTrain trains pid = some pt) (hpos : 0 < pt.priority)
    (hmax : ∀ tid ∈ ids, tid ≠ pid → ∀ t, findTrain trains tid = some t →
      t.priority < pt.priority) :
    priorityTrainId ids trains = pid := by
  obtain ⟨l1, l2, rfl⟩ := List.append_of_mem hmem
  rw [List.nodup_append] at hn
  have hpid_l1 : pid ∉ l1 := fun h => hn.2.2 h (List.mem_cons_self _ _)
  have hpid_l2 : pid ∉ l2 := (List.nodup_cons.mp hn.2.1).1
  unfold priorityTrainId
  rw [List.foldl_append, List.foldl_cons]
  set acc := List.foldl (priorityStep trains) (0, -1) l1 with hacc
  have h1 : acc.1 < pt.priority := by
    rw [hacc]
    refine priorityStep_foldl_lt (fun tid htid t ht => ?_) hpos
    exact hmax tid (List.mem_append_left _ htid)
      (fun he => hpid_l1 (he ▸ htid)) t ht
  have hstep : priorityStep trains acc pid = (pt.priority, pid) := by
    unfold priorityStep
    rw [hfind]
    dsimp only
    rw [if_pos h1]
  rw [hstep]
  rw [priorityStep_foldl_keep (fun tid htid t ht => hmax tid
    (List.mem_append_right _ (List.mem_cons_of_mem _ htid))
    (fun he => hpid_l2 (he ▸ htid)) t ht)]

theorem flatMap_processImplicated {track : Track} {track_id : Int} {ids : List Int}
    {trains : List Train} {tracks : List Track} {pid : Int}
    (hp : priorityTrainId ids trains = pid)
    (hall : ∀ tid ∈ ids, ∃ t, findTrain trains tid = some t ∧
      (is_near_station t track 10 = false ∨ bestStationTrack t track_id tracks = -1)) :
    ∀ {l : List Int}, (∀ tid ∈ l, tid ∈ ids) →
      l.flatMap (processImplicatedTrain track track_id ids trains tracks)
        = (l.filter (fun tid => !(tid == pid))).map
            (fun tid => waitAdjustment tid pid ids.length) := by
  intro l
  induction l with
  | nil => intro _; rfl
  | cons a l ih =>
    intro hsub
    obtain ⟨t, hfind, hdiv⟩ := hall a (hsub a (List.mem_cons_self _ _))
    have hone : processImplicatedTrain track track_id ids trains tracks a
        = if a ≠ pid then [waitAdjustment a pid ids.length] else [] := by
      unfold processImplicatedTrain
      rw [hfind]
      dsimp only
      have hdivnone :
          (if is_near_station t track 10 = true then
            if bestStationTrack t track_id tracks ≠ -1 then
              some (bestStationTrack t track_id tracks)
            else none
          else none) = (none : Option Int) := by
        rcases hdiv with hnear | hbest
        · rw [if_neg (by rw [hnear]; exact Bool.false_ne_true)]
        · by_cases hnear : is_near_station t track 10 = true
          · rw [if_pos hnear, if_neg (by rw [hbest]; exact fun h => h rfl)]
          · rw [if_neg hnear]
      rw [hdivnone, hp]
    rw [List.flatMap_cons, hone, ih (fun tid ht => hsub tid (List.mem_cons_of_mem _ ht))]
    by_cases ha : a = pid
    · rw [if_neg (by simp [ha]), List.filter_cons_of_neg (by simp [ha]), List.nil_append]
    · rw [if_pos ha, List.filter_cons_of_pos (by simp [ha]), List.map_cons,
        List.singleton_append]

theorem mem_updateTrain_inv {trains : List Train} {tid : Int} {f : Train → Train} {t' : Train}
    (h : t' ∈ updateTrain trains tid f) :
    ∃ t0 ∈ trains, t' = if t0.id = tid then f t0 else t0 := by
  obtain ⟨t0, ht0, he⟩ := List.mem_map.mp h
  refine ⟨t0, ht0, ?_⟩
  rw [← he]
  by_cases hid : t0.id = tid
  · rw [if_pos (beq_iff_eq.mpr hid), if_pos hid]
  · rw [if_neg (by simpa using hid), if_neg hid]

theorem mem_addToTrack_inv {tracks : List Track} {a b : Int} {tk' : Track}
    (h : tk' ∈ addToTrack tracks a b) :
    ∃ tk ∈ tracks, tk'.id = tk.id ∧
      tk'.active_train_ids =
        (if tk.id = a then tk.active_train_ids ++ [b] else tk.active_train_ids) := by
  obtain ⟨tk, htk, he⟩ := List.mem_map.mp h
  refine ⟨tk, htk, ?_, ?_⟩ <;> rw [← he] <;> by_cases hid : tk.id = a
  · rw [if_pos (beq_iff_eq.mpr hid)]
  · rw [if_neg (by simpa using hid)]
  · rw [if_pos (beq_iff_eq.mpr hid), if_pos hid]
  · rw [if_neg (by simpa using hid), if_neg hid]

theorem mem_removeFromTrack_inv {tracks : List Track} {a b : Int} {tk' : Track}
    (h : tk' ∈ removeFromTrack tracks a b) :
    ∃ tk ∈ tracks, tk'.id = tk.id ∧
      tk'.active_train_ids =
        (if tk.id = a then tk.active_train_ids.filter (fun i => !(i == b))
         else tk.active_train_ids) := by
  obtain ⟨tk, htk, he⟩ := List.mem_map.mp h
  refine ⟨tk, htk, ?_, ?_⟩ <;> rw [← he] <;> by_cases hid : tk.id = a
  · rw [if_pos (beq_iff_eq.mpr hid)]
  · rw [if_neg (by simpa using hid)]
  · rw [if_pos (beq_iff_eq.mpr hid), if_pos hid]
  · rw [if_neg (by simpa using hid), if_neg hid]

theorem image_mem_addToTrack {tracks : List Track} {a b : Int} {tk : Track}
    (h : tk ∈ tracks) :
    ∃ tk' ∈ addToTrack tracks a b, tk'.id = tk.id ∧
      tk'.active_train_ids =
        (if tk.id = a then tk.active_train_ids ++ [b] else tk.active_train_ids) := by
  refine ⟨_, List.mem_map_of_mem _ h, ?_, ?_⟩ <;> by_cases hid : tk.id = a
  · rw [if_pos (beq_iff_eq.mpr hid)]
  · rw [if_neg (by simpa using hid)]
  · rw [if_pos (beq_iff_eq.mpr hid), if_pos hid]
  · rw [if_neg (by simpa using hid), if_neg hid]

theorem image_mem_removeFromTrack {tracks : List Track} {a b : Int} {tk : Track}
    (h : tk ∈ tracks) :
    ∃ tk' ∈ removeFromTrack tracks a b, tk'.id = tk.id ∧
      tk'.active_train_ids =
        (if tk.id = a then tk.active_train_ids.filter (fun i => !(i == b))
         else tk.active_train_ids) := by
  refine ⟨_, List.mem_map_of_mem _ h, ?_, ?_⟩ <;> by_cases hid : tk.id = a
  · rw [if_pos (beq_iff_eq.mpr hid)]
  · rw [if_neg (by simpa using hid)]
  · rw [if_pos (beq_iff_eq.mpr hid), if_pos hid]
  · rw [if_neg (by simpa using hid), if_neg hid]

theorem addToTrack_map_id (tracks : List Track) (a b : Int) :
    (addToTrack tracks a b).map Track.id = tracks.map Track.id := by
  unfold addToTrack
  rw [List.map_map]
  refine List.map_congr_left (fun tk _ => ?_)
  dsimp only [Function.comp]
  split <;> rfl

theorem removeFromTrack_map_id (tracks : List Track) (a b : Int) :
    (removeFromTrack tracks a b).map Track.id = tracks.map Track.id := by
  unfold removeFromTrack
  rw [List.map_map]
  refine List.map_congr_left (fun tk _ => ?_)
  dsimp only [Function.comp]
  split <;> rfl

theorem applyAdjustment_tracks_map_id (s : SchedulerState) (adj : ScheduleAdjustment) :
    (applyAdjustment s adj).tracks.map Track.id = s.tracks.map Track.id := by
  unfold applyAdjustment
  rcases h : findTrain s.trains adj.train_id with _ | train
  · rfl
  · dsimp only
    split
    · rw [addToTrack_map_id, removeFromTrack_map_id]
    · rfl

theorem applyAdjustment_preserves_I1 {s : SchedulerState} {adj : ScheduleAdjustment}
    (hI : InvariantI1 s)
    (hv : adj.new_track_id < 0 ∨ adj.new_track_id ∈ s.tracks.map Track.id) :
    InvariantI1 (applyAdjustment s adj) := by
  obtain ⟨hMem, hSound⟩ := hI
  unfold applyAdjustment
  rcases hfind : findTrain s.trains adj.train_id with _ | train
  · exact ⟨hMem, hSound⟩
  · obtain ⟨htrainmem, htrainid⟩ := findTrain_eq_some_inv hfind
    dsimp only
    split
    case isTrue hmove =>
      obtain ⟨hnew0, hnewne⟩ := hmove
      have hvnew : adj.new_track_id ∈ s.tracks.map Track.id := by
        rcases hv with h | h
        · exact absurd hnew0 (not_le.mpr h)
        · exact h
      obtain ⟨tknew, htknewmem, htknewid⟩ := List.mem_map.mp hvnew
      constructor
      · -- TrackMem after the move
        intro t' ht'
        obtain ⟨t0, ht0, he⟩ := mem_updateTrain_inv ht'
        by_cases hid : t0.id = adj.train_id
        · rw [if_pos hid] at he
          subst he
          obtain ⟨tkr, htkr, hidr, -⟩ :=
            image_mem_removeFromTrack (a := train.current_track) (b := train.id) htknewmem
          obtain ⟨tk', htk', hida, haca⟩ :=
            image_mem_addToTrack (a := adj.new_track_id) (b := train.id) htkr
          refine ⟨tk', htk', ?_, ?_⟩
          · show tk'.id = adj.new_track_id
            rw [hida, hidr, htknewid]
          · show train.id ∈ tk'.active_train_ids
            rw [haca, if_pos (by rw [hidr, htknewid])]
            exact List.mem_append_right _ (List.mem_singleton.mpr rfl)
        · rw [if_neg hid] at he
          subst he
          obtain ⟨tk, htkmem, htkid, htkac⟩ := hMem t' ht0
          have ht0ne : t'.id ≠ train.id := fun he' => hid (he'.trans htrainid)
          obtain ⟨tkr, htkr, hidr, hacr⟩ :=
            image_mem_removeFromTrack (a := train.current_track) (b := train.id) htkmem
          obtain ⟨tk', htk', hida, haca⟩ :=
            image_mem_addToTrack (a := adj.new_track_id) (b := train.id) htkr
          refine ⟨tk', htk', by rw [hida, hidr, htkid], ?_⟩
          have hmem1 : t'.id ∈ tkr.active_train_ids := by
            rw [hacr]
            by_cases hold : tk.id = train.current_track
            · rw [if_pos hold]
              exact List.mem_filter.mpr ⟨htkac, by simp [ht0ne]⟩
            · rw [if_neg hold]
              exact htkac
          rw [haca]
          by_cases hidn : tkr.id = adj.new_track_id
          · rw [if_pos hidn]
            exact List.mem_append_left _ hmem1
          · rw [if_neg hidn]
            exact hmem1
      · -- TrackSound after the move
        intro tk' htk' t' ht' hac
        obtain ⟨tkr, htkrmem, hida, haca⟩ := mem_addToTrack_inv htk'
        obtain ⟨tk, htkmem, hidr, hacr⟩ := mem_removeFromTrack_inv htkrmem
        obtain ⟨t0, ht0, he⟩ := mem_updateTrain_inv ht'
        by_cases hid : t0.id = adj.train_id
        · rw [if_pos hid] at he
          subst he
          show adj.new_track_id = tk'.id
          have hac' : train.id ∈ tk'.active_train_ids := hac
          by_cases hidn : tkr.id = adj.new_track_id
          · rw [hida, hidn]
          · exfalso
            rw [haca, if_neg hidn] at hac'
            by_cases hold : tk.id = train.current_track
            · rw [hacr, if_pos hold] at hac'
              have := (List.mem_filter.mp hac').2
              simp at this
            · rw [hacr, if_neg hold] at hac'
              exact hold (hSound tk htkmem train htrainmem hac').symm
        · rw [if_neg hid] at he
          subst he
          have ht0ne : t'.id ≠ train.id := fun he' => hid (he'.trans htrainid)
          have hac1 : t'.id ∈ tkr.active_train_ids := by
            rw [haca] at hac
            by_cases hidn : tkr.id = adj.new_track_id
            · rw [if_pos hidn] at hac
              rcases List.mem_append.mp hac with h | h
              · exact h
              · exact absurd (List.mem_singleton.mp h) ht0ne
            · rw [if_neg hidn] at hac
              exact hac
          have hac2 : t'.id ∈ tk.active_train_ids := by
            rw [hacr] at hac1
            by_cases hold : tk.id = train.current_track
            · rw [if_pos hold] at hac1
              exact List.mem_of_mem_filter hac1
            · rw [if_neg hold] at hac1
              exact hac1
          rw [hida, hidr]
          exact hSound tk htkmem t' ht0 hac2
    case isFalse hmove =>
      constructor
      · intro t' ht'
        obtain ⟨t0, ht0, he⟩ := mem_updateTrain_inv ht'
        by_cases hid : t0.id = adj.train_id
        · rw [if_pos hid] at he
          subst he
          obtain ⟨tk, htkmem, htkid, htkac⟩ := hMem train htrainmem
          refine ⟨tk, htkmem, ?_, ?_⟩
          · show tk.id = train.current_track
            exact htkid
          · show train.id ∈ tk.active_train_ids
            exact htkac
        · rw [if_neg hid] at he
          subst he
          exact hMem t' ht0
      · intro tk' htk' t' ht' hac
        obtain ⟨t0, ht0, he⟩ := mem_updateTrain_inv ht'
        by_cases hid : t0.id = adj.train_id
        · rw [if_pos hid] at he
          subst he
          show train.current_track = tk'.id
          exact hSound tk' htk' train htrainmem hac
        · rw [if_neg hid] at he
          subst he
          exact hSound tk' htk' t' ht0 hac

theorem apply_adjustments_preserves_I1 {s : SchedulerState}
    {adjustments : List ScheduleAdjustment} (hI : InvariantI1 s)
    (hv : ∀ adj ∈ adjustments,
      adj.new_track_id < 0 ∨ adj.new_track_id ∈ s.tracks.map Track.id) :
    InvariantI1 (apply_adjustments s adjustments) := by
  induction adjustments generalizing s with
  | nil => exact hI
  | cons a rest ih =>
    unfold apply_adjustments
    rw [List.foldl_cons]
    refine ih (applyAdjustment_preserves_I1 hI (hv a (List.mem_cons_self _ _))) ?_
    intro adj hadj
    rw [applyAdjustment_tracks_map_id]
    exact hv adj (List.mem_cons_of_mem _ hadj)

theorem resolveOneConflict_isSome {trains : List Train} {tracks : List Track} {c : Conflict}
    (h : 0 ≤ c.train2_id →
      (findTrain trains c.train1_id).isSome ∧ (findTrain trains c.train2_id).isSome) :
    (resolveOneConflict trains tracks c).isSome := by
  unfold resolveOneConflict
  by_cases h2 : c.train2_id < 0
  · rw [if_pos h2]; rfl
  · rw [if_neg h2]
    obtain ⟨hs1, hs2⟩ := h (not_lt.mp h2)
    obtain ⟨t1, ht1⟩ := Option.isSome_iff_exists.mp hs1
    obtain ⟨t2, ht2⟩ := Option.isSome_iff_exists.mp hs2
    rw [ht1, ht2]
    rfl

theorem capacity_filter_detect {s : SchedulerState} {tk : Track}
    (hnk : (s.tracks.map Track.id).Nodup) (htk : tk ∈ s.tracks)
    (hcap : 0 ≤ tk.capacity)
    (hover : tk.capacity.toNat < (groupFor s.trains tk.id).length) :
    (detect_conflicts s).filter
        (fun c => decide (c.conflict_type = "capacity_exceeded" ∧ c.track_id = tk.id))
      = (((groupFor s.trains tk.id).map Train.id).drop tk.capacity.toNat).map
          (capacityConflictFor tk) := by
  unfold detect_conflicts
  rw [filter_flatMap]
  have hkeymem : tk.id ∈ (s.trains.map (fun t => t.current_track)).dedup := by
    obtain ⟨t, ht⟩ := List.exists_mem_of_length_pos (lt_of_le_of_lt (Nat.zero_le _) hover)
    obtain ⟨htmem, htcur⟩ := mem_groupFor.mp ht
    exact List.mem_dedup.mpr (List.mem_map.mpr ⟨t, htmem, htcur⟩)
  have hz : ∀ k' ∈ (s.trains.map (fun t => t.current_track)).dedup, k' ≠ tk.id →
      (conflictsForKey s k').filter
        (fun c => decide (c.conflict_type = "capacity_exceeded" ∧ c.track_id = tk.id)) = [] := by
    intro k' hk' hne
    unfold conflictsForKey
    rcases hf : findTrack s.tracks k' with _ | track
    · rfl
    · refine List.filter_eq_nil_iff.mpr (fun c hc => ?_)
      have hcid : c.track_id = k' := by
        have h2 := (findTrack_eq_some_inv hf).2
        unfold trackConflicts at hc
        rcases List.mem_append.mp hc with h | h
        · obtain ⟨p, -, hp⟩ := List.mem_flatMap.mp h
          rw [track_id_of_mem_pairConflict hp, h2]
        · rw [(mem_capacityConflicts h).2, h2]
      simp [hcid, hne]
  rw [flatMap_eq_single (List.nodup_dedup _) hkeymem hz]
  unfold conflictsForKey
  rw [findTrack_eq_some_of_mem hnk htk]
  unfold trackConflicts
  rw [List.filter_append]
  have hpair : ((ordPairs (groupFor s.trains tk.id)).flatMap
        (fun p => pairConflict tk p.1 p.2)).filter
      (fun c => decide (c.conflict_type = "capacity_exceeded" ∧ c.track_id = tk.id)) = [] := by
    refine List.filter_eq_nil_iff.mpr (fun c hc => ?_)
    obtain ⟨q, -, hq⟩ := List.mem_flatMap.mp hc
    rcases conflict_type_of_mem_pairConflict hq with h | h <;> simp [h]
  have hcapf : (capacityConflicts tk (groupFor s.trains tk.id)).filter
        (fun c => decide (c.conflict_type = "capacity_exceeded" ∧ c.track_id = tk.id))
      = capacityConflicts tk (groupFor s.trains tk.id) := by
    refine List.filter_eq_self.mpr (fun c hc => ?_)
    obtain ⟨hty, hti⟩ := mem_capacityConflicts hc
    simp [hty, hti]
  rw [hpair, hcapf, List.nil_append]
  unfold capacityConflicts
  rw [if_pos ⟨hcap, hover⟩]

/-! The claims. -/

/-- Claim C1: for every conflict in the input list that references two
real train IDs, `resolve_by_priority` emits exactly one
`ScheduleAdjustment`, targeting the train of the pair with the lower
priority value; the higher-priority train is never the target, and
conflicts whose second train ID is absent (`train2_id < 0`) produce no
adjustment. -/
theorem C1_resolve_by_priority_lower_target (conflicts : List Conflict)
    (trains : List Train) (tracks : List Track)
    (h : ∀ c ∈ conflicts, 0 ≤ c.train2_id →
      (findTrain trains c.train1_id).isSome ∧ (findTrain trains c.train2_id).isSome) :
    ∃ l, resolve_by_priority conflicts trains tracks = some l
      ∧ l = conflicts.flatMap (fun c => (resolveOneConflict trains tracks c).getD [])
      ∧ (∀ c ∈ conflicts, c.train2_id < 0 → resolveOneConflict trains tracks c = some [])
      ∧ (∀ c ∈ conflicts, ∀ t1 t2 : Train, 0 ≤ c.train2_id →
          findTrain trains c.train1_id = some t1 → findTrain trains c.train2_id = some t2 →
          ∃ a, resolveOneConflict trains tracks c = some [a]
            ∧ a.train_id = (lowerPriorityTrain t1 t2).id
            ∧ (t1.priority < t2.priority → a.train_id = t1.id)
            ∧ (t2.priority ≤ t1.priority → a.train_id = t2.id)) := by
  refine ⟨_, resolve_by_priority_eq_flatMap trains tracks conflicts
    (fun c hc => resolveOneConflict_isSome (h c hc)), rfl, ?_, ?_⟩
  · intro c hc h2
    unfold resolveOneConflict
    rw [if_pos h2]
  · intro c hc t1 t2 h2 ht1 ht2
    refine ⟨mkAdjustment trains tracks c t1 t2, ?_, mkAdjustment_train_id trains tracks c t1 t2,
      ?_, ?_⟩
    · unfold resolveOneConflict
      rw [if_neg (not_lt.mpr h2), ht1, ht2]
    · intro hlt
      rw [mkAdjustment_train_id]
      unfold lowerPriorityTrain
      rw [if_pos hlt]
    · intro hle
      rw [mkAdjustment_train_id]
      unfold lowerPriorityTrain
      rw [if_neg (not_lt.mpr hle)]

/-- Witness for C1 at a concrete input: one two-train conflict and one
capacity conflict resolve successfully. -/
theorem C1_resolve_by_priority_lower_target_witness :
    (resolve_by_priority c1Conflicts c1Trains c1Tracks).isSome = true := by
  obtain ⟨l, hl, -, -, -⟩ :=
    C1_resolve_by_priority_lower_target c1Conflicts c1Trains c1Tracks (by decide)
  rw [hl]
  rfl

/-- Claim C2: for every unordered pair of trains sharing a single-track
track, `detect_conflicts` reports a `head_on` conflict with severity 10
iff the trains lie in opposite halves of the track and the meeting time
`distance / (v1 + v2) * 60` is strictly between 0 and 5 minutes (a
combined velocity below 0.1 km/h meaning `+∞`, hence no conflict); the
conflict's estimated time equals that meeting time. -/
theorem C2_head_on_detection_iff (s : SchedulerState) (tk : Track) (t1 t2 : Train)
    (hnt : (s.trains.map Train.id).Nodup) (hnk : (s.tracks.map Track.id).Nodup)
    (htk : tk ∈ s.tracks) (hsingle : tk.is_single_track = true)
    (h1 : t1 ∈ s.trains) (h2 : t2 ∈ s.trains) (hne : t1.id ≠ t2.id)
    (hc1 : t1.current_track = tk.id) (hc2 : t2.current_track = tk.id) :
    ((headOnConflict tk t1 t2 ∈ detect_conflicts s
        ∨ headOnConflict tk t2 t1 ∈ detect_conflicts s)
      ↔ (¬((t1.position_km < tk.length_km / 2) ↔ (t2.position_km < tk.length_km / 2))
          ∧ ∃ m, calculate_meeting_time t1 t2 = some m ∧ 0 < m ∧ m < 5))
    ∧ (headOnConflict tk t1 t2).estimated_collision_time_minutes = calculate_meeting_time t1 t2
    ∧ (headOnConflict tk t1 t2).severity = 10 := by
  refine ⟨?_, rfl, rfl⟩
  rw [← check_single_track_collision_iff t1 t2 tk]
  constructor
  · rintro (h | h)
    · exact head_on_mem_inv hnt hnk htk h1 h2 h
    · rw [check_single_track_collision_comm]
      exact head_on_mem_inv hnt hnk htk h2 h1 h
  · intro hchk
    have hne' : t1 ≠ t2 := fun he => hne (congrArg Train.id he)
    have hg1 : t1 ∈ groupFor s.trains tk.id := mem_groupFor.mpr ⟨h1, hc1⟩
    have hg2 : t2 ∈ groupFor s.trains tk.id := mem_groupFor.mpr ⟨h2, hc2⟩
    have hkey : tk.id ∈ (s.trains.map (fun t => t.current_track)).dedup :=
      List.mem_dedup.mpr (List.mem_map.mpr ⟨t1, h1, hc1⟩)
    rcases ordPairs_cover hg1 hg2 hne' with hp | hp
    · exact Or.inl (mem_detect_of_site hnk htk hkey hp (pairConflict_head_on_mem hsingle hchk))
    · refine Or.inr (mem_detect_of_site hnk htk hkey hp (pairConflict_head_on_mem hsingle ?_))
      rw [check_single_track_collision_comm]
      exact hchk

/-- Witness for C2: on a 50 km single track with trains at km 20
(100 km/h) and km 30 (80 km/h), the meeting time is 10/3 minutes and
the head-on conflict is reported. -/
theorem C2_head_on_detection_iff_witness :
    headOnConflict c2Track c2Train1 c2Train2 ∈ detect_conflicts c2State
      ∨ headOnConflict c2Track c2Train2 c2Train1 ∈ detect_conflicts c2State := by
  refine ((C2_head_on_detection_iff c2State c2Track c2Train1 c2Train2 (by decide) (by decide)
    (by decide) (by decide) (by decide) (by decide) (by decide) (by decide) (by decide)).1).mpr
    ⟨by decide, 10/3, by decide, by decide, by decide⟩

/-- Claim C3, counterexample: from a state satisfying I1, an adjustment
whose `new_track_id` names a nonexistent track leaves the moved train
registered on no track, violating I1. -/
theorem C3_invariant_counterexample :
    InvariantI1 c3State
    ∧ ¬ InvariantI1 (apply_adjustments c3State [c3BadAdjustment]) := by decide

/-- Claim C3, amended: `apply_adjustments` preserves the
track-membership invariant I1 provided every adjustment's
`new_track_id` is either negative (no track change) or the id of an
existing track. -/
theorem C3_apply_adjustments_invariant (s : SchedulerState)
    (adjustments : List ScheduleAdjustment) (hI : InvariantI1 s)
    (hv : ∀ adj ∈ adjustments,
      adj.new_track_id < 0 ∨ adj.new_track_id ∈ s.tracks.map Track.id) :
    InvariantI1 (apply_adjustments s adjustments) :=
  apply_adjustments_preserves_I1 hI hv

/-- Witness for the amended C3: a move to the existing track 2
preserves I1. -/
theorem C3_apply_adjustments_invariant_witness :
    InvariantI1 (apply_adjustments c3WitnessState [c3GoodAdjustment]) :=
  C3_apply_adjustments_invariant c3WitnessState [c3GoodAdjustment] (by decide) (by decide)

/-- Claim C4 (code bug): `predict_future_conflicts` computes the
projected snapshot but returns the empty vector without running
detection on it; on `c4State` with a 10-minute horizon the projected
snapshot contains an overtaking hazard that detection would report,
while the current state has none. -/
theorem C4_predict_future_conflicts_stub :
    (∀ (s : SchedulerState) (horizon : ℚ), predict_future_conflicts s horizon = [])
    ∧ predict_future_conflicts c4State 10 = []
    ∧ detect_conflicts (projectedState c4State 10) ≠ []
    ∧ detect_conflicts c4State = [] :=
  ⟨fun _ _ => rfl, rfl, by decide, by decide⟩

/-- Claim C5, counterexample: on `c5State` (two trains 1 km apart at
30 km/h each on a double-track segment) the reported overtaking
conflict stores `1 / ((30+30)/2) * 60 = 2` minutes, not the claimed
combined-velocity closing time `1 / (30+30) * 60 = 1`. -/
theorem C5_overtaking_time_counterexample :
    detect_conflicts c5State
      = [{ train1_id := 1, train2_id := 2, track_id := 1, conflict_type := "overtaking",
           estimated_collision_time_minutes := some 2, severity := 5 }]
    ∧ (2 : ℚ) ≠ |c5Train1.position_km - c5Train2.position_km|
        / (c5Train1.velocity_kmh + c5Train2.velocity_kmh) * 60 := by decide

/-- Claim C5, amended: for every unordered pair of trains sharing a
non-single-track track, `detect_conflicts` reports an overtaking
conflict with severity 5 iff the absolute position difference is
strictly below 2 km, and its estimated time is
`distance / ((v1 + v2) / 2) * 60` — the average-velocity closing time,
twice the combined-velocity formula the claim states. -/
theorem C5_overtaking_detection_iff (s : SchedulerState) (tk : Track) (t1 t2 : Train)
    (hnt : (s.trains.map Train.id).Nodup) (hnk : (s.tracks.map Track.id).Nodup)
    (htk : tk ∈ s.tracks) (hmulti : tk.is_single_track = false)
    (h1 : t1 ∈ s.trains) (h2 : t2 ∈ s.trains) (hne : t1.id ≠ t2.id)
    (hc1 : t1.current_track = tk.id) (hc2 : t2.current_track = tk.id) :
    ((overtakingConflict tk t1 t2 ∈ detect_conflicts s
        ∨ overtakingConflict tk t2 t1 ∈ detect_conflicts s)
      ↔ |t1.position_km - t2.position_km| < 2)
    ∧ (overtakingConflict tk t1 t2).estimated_collision_time_minutes
        = some (|t1.position_km - t2.position_km|
            / ((t1.velocity_kmh + t2.velocity_kmh) / 2) * 60)
    ∧ (overtakingConflict tk t1 t2).severity = 5 := by
  refine ⟨?_, rfl, rfl⟩
  constructor
  · rintro (h | h)
    · exact overtaking_mem_inv hnt h1 h2 h
    · rw [abs_sub_comm]
      exact overtaking_mem_inv hnt h2 h1 h
  · intro hlt
    have hne' : t1 ≠ t2 := fun he => hne (congrArg Train.id he)
    have hg1 : t1 ∈ groupFor s.trains tk.id := mem_groupFor.mpr ⟨h1, hc1⟩
    have hg2 : t2 ∈ groupFor s.trains tk.id := mem_groupFor.mpr ⟨h2, hc2⟩
    have hkey : tk.id ∈ (s.trains.map (fun t => t.current_track)).dedup :=
      List.mem_dedup.mpr (List.mem_map.mpr ⟨t1, h1, hc1⟩)
    rcases ordPairs_cover hg1 hg2 hne' with hp | hp
    · exact Or.inl (mem_detect_of_site hnk htk hkey hp (pairConflict_overtaking_mem hmulti hlt))
    · refine Or.inr (mem_detect_of_site hnk htk hkey hp (pairConflict_overtaking_mem hmulti ?_))
      rw [abs_sub_comm]
      exact hlt

/-- Witness for the amended C5 on `c5State`. -/
theorem C5_overtaking_detection_iff_witness :
    overtakingConflict c5Track c5Train1 c5Train2 ∈ detect_conflicts c5State
      ∨ overtakingConflict c5Track c5Train2 c5Train1 ∈ detect_conflicts c5State := by
  refine ((C5_overtaking_detection_iff c5State c5Track c5Train1 c5Train2 (by decide) (by decide)
    (by decide) (by decide) (by decide) (by decide) (by decide) (by decide) (by decide)).1).mpr
    (by decide)

/-- Claim C6: for every track whose number of assigned trains exceeds
its (nonnegative) capacity, `detect_conflicts` emits exactly
`count - capacity` `capacity_exceeded` conflicts, one per excess train
beyond the first `capacity` entries of the track's group in the model's
assignment order, each with severity 7, estimated time 0 and no paired
train; a capacity-2 track holding 3 trains yields exactly the conflict
naming the 3rd train. -/
theorem C6_capacity_exceeded_conflicts :
    (∀ (s : SchedulerState) (tk : Track),
      (s.tracks.map Track.id).Nodup → tk ∈ s.tracks → 0 ≤ tk.capacity →
      tk.capacity.toNat < (groupFor s.trains tk.id).length →
      (detect_conflicts s).filter
          (fun c => decide (c.conflict_type = "capacity_exceeded" ∧ c.track_id = tk.id))
        = (((groupFor s.trains tk.id).map Train.id).drop tk.capacity.toNat).map
            (capacityConflictFor tk)
      ∧ ((detect_conflicts s).filter
          (fun c => decide (c.conflict_type = "capacity_exceeded" ∧ c.track_id = tk.id))).length
        = (groupFor s.trains tk.id).length - tk.capacity.toNat)
    ∧ detect_conflicts c6State = [capacityConflictFor c6Track 13]
    ∧ capacityConflictFor c6Track 13
        = { train1_id := 13, train2_id := -1, track_id := 1,
            conflict_type := "capacity_exceeded",
            estimated_collision_time_minutes := some 0, severity := 7 } := by
  refine ⟨?_, by decide, by decide⟩
  intro s tk hnk htk hcap hover
  have heq := capacity_filter_detect hnk htk hcap hover
  refine ⟨heq, ?_⟩
  rw [heq, List.length_map, List.length_drop, List.length_map]

/-- Witness for C6 on the Scenario-2 state: exactly one
`capacity_exceeded` conflict, for train 13. -/
theorem C6_capacity_exceeded_conflicts_witness :
    (detect_conflicts c6State).filter
        (fun c => decide (c.conflict_type = "capacity_exceeded" ∧ c.track_id = c6Track.id))
      = [capacityConflictFor c6Track 13] := by
  rw [(C6_capacity_exceeded_conflicts.1 c6State c6Track (by decide) (by decide) (by decide)
    (by decide)).1]
  decide

/-- Claim C7: on a single-track track whose implicated trains are all
present and none of them divertible to a station track, the unique
positive-maximal-priority train receives no adjustment and every other
implicated train waits `8 * (count - 1)` minutes with no track change
and confidence 0.70; in Scenario 5 (priorities {9,5,5}, none near a
station) the priority-9 train is unadjusted and the other two get 16
minutes each. -/
theorem C7_single_track_priority_waiting :
    (∀ (track : Track) (track_id : Int) (cs : List Conflict) (trains : List Train)
        (tracks : List Track) (pid : Int) (pt : Train),
      track.is_single_track = true → cs ≠ [] →
      (∀ tid ∈ implicatedIds cs, ∃ t ∈ trains, findTrain trains tid = some t ∧
        (is_near_station t track 10 = false ∨ bestStationTrack t track_id tracks = -1)) →
      pid ∈ implicatedIds cs → findTrain trains pid = some pt → 0 < pt.priority →
      (∀ tid ∈ implicatedIds cs, tid ≠ pid → ∀ t ∈ trains,
        findTrain trains tid = some t → t.priority < pt.priority) →
      resolveSingleTrack track track_id cs trains tracks
        = ((implicatedIds cs).filter (fun tid => !(tid == pid))).map
            (fun tid => waitAdjustment tid pid (implicatedIds cs).length))
    ∧ resolve_single_track_conflicts c7Conflicts c7Trains c7Tracks
        = some [waitAdjustment 2 1 3, waitAdjustment 3 1 3]
    ∧ waitAdjustment 2 1 3
        = { train_id := 2, new_track_id := -1, time_adjustment_minutes := 16,
            new_platform := -1,
            reason := "Single-track conflict: waiting for priority train 1",
            confidence := 7/10 } := by
  refine ⟨?_, by decide, by decide⟩
  intro track track_id cs trains tracks pid pt hsingle hcs hall hpid hfind hpos hmax
  unfold resolveSingleTrack
  rw [if_pos ⟨hsingle, List.length_pos.mpr hcs⟩]
  have hall' : ∀ tid ∈ implicatedIds cs, ∃ t, findTrain trains tid = some t ∧
      (is_near_station t track 10 = false ∨ bestStationTrack t track_id tracks = -1) := by
    intro tid ht
    obtain ⟨t, -, hf, hd⟩ := hall tid ht
    exact ⟨t, hf, hd⟩
  have hmax' : ∀ tid ∈ implicatedIds cs, tid ≠ pid → ∀ t : Train,
      findTrain trains tid = some t → t.priority < pt.priority := by
    intro tid ht hne t hf
    exact hmax tid ht hne t (findTrain_eq_some_inv hf).1 hf
  have hp : priorityTrainId (implicatedIds cs) trains = pid :=
    priorityTrainId_eq (by unfold implicatedIds; exact List.nodup_dedup _) hpid hfind hpos hmax'
  exact flatMap_processImplicated hp hall' (fun tid ht => ht)

/-- Witness for C7 at the Scenario-5 input. -/
theorem C7_single_track_priority_waiting_witness :
    resolveSingleTrack c7Track 1 c7Conflicts c7Trains c7Tracks
      = [waitAdjustment 2 1 3, waitAdjustment 3 1 3] := by
  rw [C7_single_track_priority_waiting.1 c7Track 1 c7Conflicts c7Trains c7Tracks 1
    { id := 1, current_track := 1, position_km := 25, velocity_kmh := 50, priority := 9 }
    (by decide) (by decide) (by decide) (by decide) (by decide) (by decide) (by decide)]
  decide

/-- Claim C8, counterexample: a valid alternative track exists for the
lower-priority train (track 2: reaches station 7, occupancy 0 below
capacity 2, no downgrade), yet because the train is 20 km from every
station, `resolve_by_priority` takes the delay fallback
(`5 * severity` minutes, no track change, confidence 0.75) instead of
the claimed track switch. -/
theorem C8_track_switch_counterexample :
    resolve_by_priority [c8Conflict] c8Trains c8Tracks
      = some [{ train_id := 2, time_adjustment_minutes := 25, new_track_id := -1,
                new_platform := -1,
                reason := "Time delay to avoid conflict (not near station for track switch)",
                confidence := 3/4 }]
    ∧ (∃ tk ∈ c8Tracks, altPred c8CurrentTrack c8Conflict.track_id c8Trains c8LowerTrain tk
        = true)
    ∧ find_alternative_track c8LowerTrain c8Conflict.track_id c8Tracks c8Trains = 2 := by
  decide

/-- Claim C8, amended: when both trains occupy the conflicted track,
the lower-priority train is within 5 km of a station, and a valid
alternative track exists, `resolve_by_priority` emits the track-switch
adjustment (0.5 minutes, `new_track_id` set to the found track,
confidence 0.90) rather than the delay fallback. -/
theorem C8_track_switch_preference (c : Conflict) (trains : List Train)
    (tracks : List Track) (t1 t2 : Train) (ct : Track)
    (h2 : 0 ≤ c.train2_id)
    (hf1 : findTrain trains c.train1_id = some t1)
    (hf2 : findTrain trains c.train2_id = some t2)
    (hpos : ∀ tk ∈ tracks, 0 ≤ tk.id)
    (hcur1 : c.track_id = (lowerPriorityTrain t1 t2).current_track)
    (hcur2 : c.track_id = (higherPriorityTrain t1 t2).current_track)
    (hct : findTrack tracks c.track_id = some ct)
    (hnear : is_near_station (lowerPriorityTrain t1 t2) ct 5 = true)
    (halt : ∃ tk ∈ tracks, altPred ct c.track_id trains (lowerPriorityTrain t1 t2) tk = true) :
    ∃ a, resolve_by_priority [c] trains tracks = some [a]
      ∧ a.train_id = (lowerPriorityTrain t1 t2).id
      ∧ a.time_adjustment_minutes = 1/2
      ∧ a.new_track_id
          = find_alternative_track (lowerPriorityTrain t1 t2) c.track_id tracks trains
      ∧ 0 ≤ a.new_track_id
      ∧ a.confidence = 9/10 := by
  have halt0 : 0 ≤ find_alternative_track (lowerPriorityTrain t1 t2) c.track_id tracks trains :=
    find_alternative_track_nonneg hct halt hpos
  have hadj : mkAdjustment trains tracks c t1 t2
      = { train_id := (lowerPriorityTrain t1 t2).id, time_adjustment_minutes := 1/2,
          new_track_id :=
            find_alternative_track (lowerPriorityTrain t1 t2) c.track_id tracks trains,
          new_platform := -1,
          reason := "Track switch at station to avoid conflict (priority-based)",
          confidence := 9/10 } := by
    simp only [mkAdjustment]
    rw [if_pos (⟨hcur1, hcur2⟩ : _ ∧ _), hct]
    dsimp only
    rw [if_pos hnear, if_pos halt0]
  have hone : resolveOneConflict trains tracks c = some [mkAdjustment trains tracks c t1 t2] := by
    unfold resolveOneConflict
    rw [if_neg (not_lt.mpr h2), hf1, hf2]
  have hres : resolve_by_priority [c] trains tracks
      = some [mkAdjustment trains tracks c t1 t2] := by
    rw [resolve_by_priority_eq_flatMap trains tracks [c]
      (fun c' hc' => by rw [List.mem_singleton.mp hc', hone]; rfl)]
    rw [List.flatMap_cons, hone]
    rfl
  refine ⟨mkAdjustment trains tracks c t1 t2, hres, ?_, ?_, ?_, ?_, ?_⟩
  · rw [hadj]
  · rw [hadj]
  · rw [hadj]
  · rw [hadj]
    exact halt0
  · rw [hadj]

/-- Witness for the amended C8: with the lower-priority train near the
station, the resolver does emit an adjustment (the 0.5-minute switch). -/
theorem C8_track_switch_preference_witness :
    (resolve_by_priority [c8Conflict] c8NearTrains c8Tracks).isSome = true := by
  obtain ⟨a, h1, -, -, -, -, -⟩ := C8_track_switch_preference c8Conflict c8NearTrains c8Tracks
    c8Train1 c8NearLower c8CurrentTrack (by decide) (by decide) (by decide) (by decide)
    (by decide) (by decide) (by decide) (by decide) (by decide)
  rw [h1]
  rfl

/-- Claim C9: for a train ID absent from the model, `update_train_state`
and `remove_train` leave the entire scheduler state unchanged — a
silent no-op. -/
theorem C9_unknown_id_noop (s : SchedulerState) (train_id : Int)
    (h : findTrain s.trains train_id = none)
    (position_km velocity_kmh : ℚ) (is_delayed : Bool) :
    update_train_state s train_id position_km velocity_kmh is_delayed = s
    ∧ remove_train s train_id = s := by
  constructor
  · unfold update_train_state
    rw [h]
  · unfold remove_train
    rw [h]

/-- Witness for C9: train 42 is unknown to `c9State`. -/
theorem C9_unknown_id_noop_witness :
    update_train_state c9State 42 7 8 true = c9State ∧ remove_train c9State 42 = c9State :=
  C9_unknown_id_noop c9State 42 (by decide) 7 8 true

/-- Claim C10: `resolve_by_priority` is total when every two-train
conflict references train IDs present in the map, and on an input whose
two-train conflict names the absent train 5 the `trains.at` lookup
fails (`none`, modelling the thrown `std::out_of_range`) instead of
skipping the conflict. -/
theorem C10_missing_train_out_of_range :
    (∀ (conflicts : List Conflict) (trains : List Train) (tracks : List Track),
      (∀ c ∈ conflicts, 0 ≤ c.train2_id →
        (findTrain trains c.train1_id).isSome ∧ (findTrain trains c.train2_id).isSome) →
      (resolve_by_priority conflicts trains tracks).isSome)
    ∧ resolve_by_priority [c10BadConflict] c10Trains c10Tracks = none
    ∧ 0 ≤ c10BadConflict.train2_id
    ∧ findTrain c10Trains c10BadConflict.train2_id = none := by
  refine ⟨?_, by decide, by decide, by decide⟩
  intro conflicts trains tracks h
  rw [resolve_by_priority_eq_flatMap trains tracks conflicts
    (fun c hc => resolveOneConflict_isSome (h c hc))]
  rfl

/-- Witness for C10's totality half at a concrete well-formed input. -/
theorem C10_missing_train_out_of_range_witness :
    (resolve_by_priority [c8Conflict] c8Trains c8Tracks).isSome = true :=
  C10_missing_train_out_of_range.1 [c8Conflict] c8Trains c8Tracks (by decide)

end RailwayAI
